import Mathlib

/-!
Verification of the response-normalization engine in
`model_serving_utils.py` (data-product discovery app).

Python/JSON values are shallowly embedded as the inductive type `Value`;
operations that can raise a Python exception return `Except Unit _` and the
surrounding `try/except` handlers are modelled at the points where the
source catches.  All definitions are executable so that concrete payloads
can be evaluated with `decide`/`rfl`.
-/

set_option maxRecDepth 4000
set_option maxHeartbeats 1000000

namespace DataDiscovery

/-- A Python/JSON value: the payload shapes handled by the module
(dicts with string keys, lists, strings, integers, booleans, None).
Numbers are modelled as integers; the payloads under study carry only
integer numerics. -/
inductive Value where
  | null : Value
  | bool (b : Bool) : Value
  | num (n : Int) : Value
  | str (s : String) : Value
  | arr (xs : List Value) : Value
  | obj (kvs : List (String × Value)) : Value

mutual
/-- Structural (Python `==`) equality of values. -/
def Value.beq : Value → Value → Bool
  | .null, .null => true
  | .bool a, .bool b => a == b
  | .num a, .num b => a == b
  | .str a, .str b => a == b
  | .arr a, .arr b => Value.beqList a b
  | .obj a, .obj b => Value.beqObj a b
  | _, _ => false

/-- Elementwise equality of value lists. -/
def Value.beqList : List Value → List Value → Bool
  | [], [] => true
  | a :: as', b :: bs' => Value.beq a b && Value.beqList as' bs'
  | _, _ => false

/-- Entrywise equality of dict entry lists. -/
def Value.beqObj : List (String × Value) → List (String × Value) → Bool
  | [], [] => true
  | (ka, va) :: as', (kb, vb) :: bs' =>
    ka == kb && Value.beq va vb && Value.beqObj as' bs'
  | _, _ => false
end

instance : BEq Value := ⟨Value.beq⟩

namespace Value

/-- First-match association lookup in a dict's key/value list. -/
def lookupL : List (String × Value) → String → Option Value
  | [], _ => none
  | (k, v) :: rest, key => if k = key then some v else lookupL rest key

/-- Subscript lookup `d[k]` on a value; `none` when the value is not a dict or
the key is absent. -/
def lookup : Value → String → Option Value
  | .obj kvs, k => lookupL kvs k
  | _, _ => none

/-- Whether a dict's key/value list carries a key. -/
def hasKeyB (kvs : List (String × Value)) (k : String) : Bool :=
  (lookupL kvs k).isSome

/-- Python `d.get(k, default)` on a dict value (the callers only invoke
`.get` on values already known to be dicts; on any other value the Python
call would raise, which call sites model separately). -/
def getD (v : Value) (k : String) (default : Value) : Value :=
  match v.lookup k with
  | some x => x
  | none => default

end Value

/-- Python truthiness of a value. -/
def pyTruthy : Value → Bool
  | .null => false
  | .bool b => b
  | .num n => n != 0
  | .str s => !s.isEmpty
  | .arr xs => !xs.isEmpty
  | .obj kvs => !kvs.isEmpty

/-- Python `len(v)`: defined on strings, lists and dicts; raises
`TypeError` (modelled as `.error`) on numbers, booleans and `None`. -/
def pyLenE : Value → Except Unit Nat
  | .str s => .ok s.length
  | .arr xs => .ok xs.length
  | .obj kvs => .ok kvs.length
  | _ => .error ()

/-- Does the character list `pat` occur as a prefix of `cs`? -/
def leadsWith : List Char → List Char → Bool
  | [], _ => true
  | _ :: _, [] => false
  | p :: ps, c :: cs => p == c && leadsWith ps cs

/-- Least index `p ≥ i` at which `pat` occurs in `cs`, if any. -/
def findFrom (cs pat : List Char) (i : Nat) (fuel : Nat) : Option Nat :=
  match fuel with
  | 0 => none
  | fuel + 1 =>
    if leadsWith pat (cs.drop i) then some i
    else if i < cs.length then findFrom cs pat (i + 1) fuel
    else none

/-- Python `sub in s` for strings: substring containment. -/
def substrB (sub s : String) : Bool :=
  (findFrom s.data sub.data 0 (s.data.length + 1)).isSome

/-- Python `key in v`: key membership for dicts, element equality for
lists, substring test for strings; raises `TypeError` on numbers,
booleans and `None`. -/
def pyInE (k : String) : Value → Except Unit Bool
  | .obj kvs => .ok (Value.hasKeyB kvs k)
  | .arr xs => .ok (xs.contains (.str k))
  | .str t => .ok (substrB k t)
  | _ => .error ()

/-- Python `v[k]` with a string subscript: dict lookup (raising `KeyError`
when absent); raises `TypeError` on every non-dict value. -/
def getItemStrE (v : Value) (k : String) : Except Unit Value :=
  match v with
  | .obj kvs =>
    match Value.lookupL kvs k with
    | some x => .ok x
    | none => .error ()
  | _ => .error ()

/-- Python `v[0]`: head of a list, first character of a string (as a
one-character string); raises on empty sequences and non-sequences. -/
def getItemFirstE : Value → Except Unit Value
  | .arr (x :: _) => .ok x
  | .arr [] => .error ()
  | .str s =>
    match s.data with
    | c :: _ => .ok (.str (String.mk [c]))
    | [] => .error ()
  | _ => .error ()

/-- Python `v[-1]`: last element of a list, last character of a string (as
a one-character string); raises on empty sequences and non-sequences. -/
def getItemLastE : Value → Except Unit Value
  | .arr xs =>
    match xs.getLast? with
    | some x => .ok x
    | none => .error ()
  | .str s =>
    match s.data.getLast? with
    | some c => .ok (.str (String.mk [c]))
    | none => .error ()
  | _ => .error ()

/-- The whitespace characters recognised by Python `str.strip()` (ASCII
range, which covers every payload under study). -/
def pyWs (c : Char) : Bool :=
  c == ' ' || c == '\t' || c == '\n' || c == '\r' || c == '\x0b' || c == '\x0c'

/-- Python `s.strip()`. -/
def pyStrip (s : String) : String :=
  String.mk (((s.data.dropWhile pyWs).reverse.dropWhile pyWs).reverse)

/-- One step of replacement scanning for `pyReplace`. -/
def pyReplaceAux (pat repl : List Char) : Nat → List Char → List Char
  | 0, cs => cs
  | _ + 1, [] => []
  | fuel + 1, c :: cs =>
    if leadsWith pat (c :: cs) then
      repl ++ pyReplaceAux pat repl fuel ((c :: cs).drop pat.length)
    else
      c :: pyReplaceAux pat repl fuel cs

/-- Python `s.replace(pat, repl)`: replace every non-overlapping
occurrence, scanning left to right (`pat` non-empty at all call sites). -/
def pyReplace (s pat repl : String) : String :=
  String.mk (pyReplaceAux pat.data repl.data (s.data.length + 1) s.data)

/-- Python `s.split(sep)` for a single-character separator. -/
def pySplitAux (sep : Char) : List Char → List Char → List String
  | [], acc => [String.mk acc.reverse]
  | c :: cs, acc =>
    if c == sep then String.mk acc.reverse :: pySplitAux sep cs []
    else pySplitAux sep cs (c :: acc)

/-- Python `s.split('\n')`. -/
def pySplitNl (s : String) : List String :=
  pySplitAux '\n' s.data []

mutual
/-- Python `repr` of a value (the shape `str()` falls back to for
non-string values: single-quoted strings, `True`/`False`/`None`). -/
def pyRepr : Value → String
  | .null => "None"
  | .bool true => "True"
  | .bool false => "False"
  | .num n => toString n
  | .str s => "\x27" ++ s ++ "\x27"
  | .arr xs => "[" ++ String.intercalate ", " (pyReprList xs) ++ "]"
  | .obj kvs => "\x7b" ++ String.intercalate ", " (pyReprObj kvs) ++ "\x7d"

/-- Rendering of list elements by `pyRepr`. -/
def pyReprList : List Value → List String
  | [] => []
  | v :: vs => pyRepr v :: pyReprList vs

/-- Rendering of dict entries by `pyRepr`. -/
def pyReprObj : List (String × Value) → List String
  | [] => []
  | (k, v) :: kvs => ("\x27" ++ k ++ "\x27: " ++ pyRepr v) :: pyReprObj kvs
end

/-- Python `str(v)`: identity on strings, `repr`-style rendering
otherwise. -/
def pyStr : Value → String
  | .str s => s
  | v => pyRepr v

/-! A model of `json.loads`

Recursive-descent JSON parser over the character list, with a fuel
argument for structural termination (every recursive call consumes at
least one character, so `length + 2` fuel always suffices).  Numbers are
modelled as integers — every payload the module handles carries only
integer numerics — and `\uXXXX` escapes are not decoded (none occur in
the payloads under study). -/

/-- JSON whitespace. -/
def jsonWs (c : Char) : Bool :=
  c == ' ' || c == '\t' || c == '\n' || c == '\r'

/-- Drop leading JSON whitespace. -/
def skipJsonWs (cs : List Char) : List Char := cs.dropWhile jsonWs

/-- Parse the body of a JSON string after the opening quote, with an
accumulator for the decoded characters. -/
def jpStringAux : Nat → List Char → List Char → Option (String × List Char)
  | 0, _, _ => none
  | _ + 1, _, [] => none
  | fuel + 1, acc, c :: cs =>
    if c == '"' then some (String.mk acc.reverse, cs)
    else if c == '\\' then
      match cs with
      | [] => none
      | e :: cs' =>
        let esc : Option Char :=
          if e == '"' then some '"'
          else if e == '\\' then some '\\'
          else if e == '/' then some '/'
          else if e == 'n' then some '\n'
          else if e == 't' then some '\t'
          else if e == 'r' then some '\r'
          else if e == 'b' then some '\x08'
          else if e == 'f' then some '\x0c'
          else none
        match esc with
        | some ch => jpStringAux fuel (ch :: acc) cs'
        | none => none
    else jpStringAux fuel (c :: acc) cs

/-- Parse a JSON integer token (sign and digits); fails when the token
continues as a float or exponent, which no considered payload uses. -/
def jpNumber (cs : List Char) : Option (Int × List Char) :=
  let (neg, cs1) :=
    match cs with
    | '-' :: rest => (true, rest)
    | _ => (false, cs)
  let ds := cs1.takeWhile Char.isDigit
  let rest := cs1.dropWhile Char.isDigit
  if ds.isEmpty then none
  else
    match rest with
    | '.' :: _ => none
    | 'e' :: _ => none
    | 'E' :: _ => none
    | _ =>
      let n : Nat := ds.foldl (fun a c => a * 10 + (c.toNat - '0'.toNat)) 0
      some (if neg then -(n : Int) else (n : Int), rest)

mutual
/-- Parse one JSON value from the front of the character list. -/
def jpVal : Nat → List Char → Option (Value × List Char)
  | 0, _ => none
  | fuel + 1, cs =>
    match skipJsonWs cs with
    | [] => none
    | c :: rest =>
      if c == '\x7b' then jpObjBody fuel rest
      else if c == '[' then jpArrBody fuel rest
      else if c == '"' then
        match jpStringAux fuel [] rest with
        | some (s, r) => some (.str s, r)
        | none => none
      else if leadsWith "true".data (c :: rest) then
        some (.bool true, (c :: rest).drop 4)
      else if leadsWith "false".data (c :: rest) then
        some (.bool false, (c :: rest).drop 5)
      else if leadsWith "null".data (c :: rest) then
        some (.null, (c :: rest).drop 4)
      else
        match jpNumber (c :: rest) with
        | some (n, r) => some (.num n, r)
        | none => none

/-- Parse an object body after the opening brace. -/
def jpObjBody : Nat → List Char → Option (Value × List Char)
  | 0, _ => none
  | fuel + 1, cs =>
    match skipJsonWs cs with
    | '\x7d' :: rest => some (.obj [], rest)
    | _ =>
      match jpMembers fuel cs with
      | some (ms, rest) => some (.obj ms, rest)
      | none => none

/-- Parse one or more `"key": value` members followed by the closing
brace. -/
def jpMembers : Nat → List Char → Option (List (String × Value) × List Char)
  | 0, _ => none
  | fuel + 1, cs =>
    match skipJsonWs cs with
    | '"' :: rest =>
      match jpStringAux fuel [] rest with
      | some (k, cs1) =>
        match skipJsonWs cs1 with
        | ':' :: cs2 =>
          match jpVal fuel cs2 with
          | some (v, cs3) =>
            match skipJsonWs cs3 with
            | ',' :: cs4 =>
              match jpMembers fuel cs4 with
              | some (ms, r) => some ((k, v) :: ms, r)
              | none => none
            | '\x7d' :: cs4 => some ([(k, v)], cs4)
            | _ => none
          | none => none
        | _ => none
      | none => none
    | _ => none

/-- Parse an array body after the opening bracket. -/
def jpArrBody : Nat → List Char → Option (Value × List Char)
  | 0, _ => none
  | fuel + 1, cs =>
    match skipJsonWs cs with
    | ']' :: rest => some (.arr [], rest)
    | _ =>
      match jpElems fuel cs with
      | some (vs, rest) => some (.arr vs, rest)
      | none => none

/-- Parse one or more array elements followed by the closing bracket. -/
def jpElems : Nat → List Char → Option (List Value × List Char)
  | 0, _ => none
  | fuel + 1, cs =>
    match jpVal fuel cs with
    | some (v, cs1) =>
      match skipJsonWs cs1 with
      | ',' :: cs2 =>
        match jpElems fuel cs2 with
        | some (vs, r) => some (v :: vs, r)
        | none => none
      | ']' :: cs2 => some ([v], cs2)
      | _ => none
    | none => none
end

/-- Model of `json.loads`: parse a complete JSON document, requiring only
whitespace after the value; `none` models `json.JSONDecodeError`. -/
def jsonParse (s : String) : Option Value :=
  match jpVal (s.data.length + 2) s.data with
  | some (v, rest) => if (skipJsonWs rest).isEmpty then some v else none
  | none => none

/-! A model of the regex fallback

`parse_rag_response` uses one literal pattern (with `re.DOTALL`):

  `\x7b[\s\S]*?"query_understanding"[\s\S]*?"results"[\s\S]*?\x7d(?:\s*\x7d)?$`

The search is embedded as a dedicated backtracking matcher: leftmost
start position wins; the lazy runs prefer the earliest following literal
occurrence; the greedy optional trailing-brace group is attempted before
being skipped; `$` matches at the end of the text or just before one
trailing newline. -/

/-- The unanchored `$` of the pattern: position `e` is the end of the
text, or the text ends with a single newline at position `e`. -/
def reEndOK (cs : List Char) (e : Nat) : Bool :=
  e == cs.length || (e + 1 == cs.length && cs.getD e ' ' == '\n')

/-- Length of the whitespace run starting at position `i`. -/
def wsRun (cs : List Char) (i : Nat) : Nat :=
  ((cs.drop i).takeWhile pyWs).length

/-- The literal `"query_understanding"` (quotes included). -/
def quLit : List Char := "\"query_understanding\"".data

/-- The literal `"results"` (quotes included). -/
def resultsLit : List Char := "\"results\"".data

/-- Match the tail `[\s\S]*?\x7d(?:\s*\x7d)?$` of the pattern: scan for a
closing brace at or after `j`, preferring the earliest one; at each brace
try the optional `\s*\x7d` group before skipping it; return the end
position of the match. -/
def tryClose (cs : List Char) (j : Nat) : Nat → Option Nat
  | 0 => none
  | fuel + 1 =>
    match findFrom cs ['\x7d'] j (cs.length + 1) with
    | none => none
    | some r =>
      let w := wsRun cs (r + 1)
      if r + 1 + w < cs.length && cs.getD (r + 1 + w) ' ' == '\x7d'
          && reEndOK cs (r + 2 + w) then
        some (r + 2 + w)
      else if reEndOK cs (r + 1) then some (r + 1)
      else tryClose cs (r + 1) fuel

/-- Match `"results"[\s\S]*?\x7d(?:\s*\x7d)?$` starting the literal search
at or after `j`, backtracking over later literal occurrences. -/
def tryResults (cs : List Char) (j : Nat) : Nat → Option Nat
  | 0 => none
  | fuel + 1 =>
    match findFrom cs resultsLit j (cs.length + 1) with
    | none => none
    | some q =>
      match tryClose cs (q + resultsLit.length) (cs.length + 1) with
      | some e => some e
      | none => tryResults cs (q + 1) fuel

/-- Match `"query_understanding"[\s\S]*?"results"...$` starting the
literal search at or after `j`, backtracking over later occurrences. -/
def tryQU (cs : List Char) (j : Nat) : Nat → Option Nat
  | 0 => none
  | fuel + 1 =>
    match findFrom cs quLit j (cs.length + 1) with
    | none => none
    | some p =>
      match tryResults cs (p + quLit.length) (cs.length + 1) with
      | some e => some e
      | none => tryQU cs (p + 1) fuel

/-- Leftmost search for the whole pattern: try each opening brace from
position `i` onward as the start of the match. -/
def reSearchStart (cs : List Char) (i : Nat) : Nat → Option (Nat × Nat)
  | 0 => none
  | fuel + 1 =>
    match findFrom cs ['\x7b'] i (cs.length + 1) with
    | none => none
    | some b =>
      match tryQU cs (b + 1) (cs.length + 1) with
      | some e => some (b, e)
      | none => reSearchStart cs (b + 1) fuel

/-- Model of `re.search(pattern, text).group()` for the module's pattern: the
matched substring, or `none` when the pattern does not match. -/
def reSearchQU (s : String) : Option String :=
  match reSearchStart s.data 0 (s.data.length + 1) with
  | some (b, e) => some (String.mk ((s.data.drop b).take (e - b)))
  | none => none

/-! `is_endpoint_supported`

The endpoint-metadata lookup (`_get_endpoint_task_type`) is an external
call; its outcome is a parameter: `.ok task` for a returned task-type
string, `.error e` for any raised exception. -/

/-- The fixed allow-list of task-type prefixes from the source. -/
def supportedTaskPrefixes : List String :=
  ["agent/", "llm/v1/chat", "llm/v1/completions"]

/-- Embedding of `is_endpoint_supported`: supported iff the task type starts with one
of the allow-listed prefixes; on any lookup exception the handler logs a
warning and returns `True` (fails open). -/
def is_endpoint_supported (lookup : Except String String) : Bool :=
  match lookup with
  | .ok task_type => supportedTaskPrefixes.any (fun p => task_type.startsWith p)
  | .error _ => true

/-! `query_endpoint_stream`

The transport (`client.predict`) yields raw chunks; the module's own
logic is the per-chunk SSE decoding, embedded here for one text chunk. -/

/-- Processing of one line of a text chunk inside
`query_endpoint_stream`: a `data: ` line has the prefix removed; a
`[DONE]` remainder (after `strip()`) is skipped; otherwise the remainder
is JSON-parsed and yielded, with malformed JSON logged and skipped.
Lines without the `data: ` prefix yield nothing. -/
def process_sse_line (line : String) : List Value :=
  if leadsWith "data: ".data line.data then
    let json_str := String.mk (line.data.drop 6)
    if pyStrip json_str = "[DONE]" then []
    else
      match jsonParse json_str with
      | some data => [data]
      | none => []
  else []

/-- The fragments yielded for one text chunk: the chunk is stripped,
split on newlines, and each line processed by `process_sse_line`. -/
def query_endpoint_stream_chunk (chunk : String) : List Value :=
  (pySplitNl (pyStrip chunk)).foldr (fun l acc => process_sse_line l ++ acc) []

/-! `query_endpoint`

The two `client.predict` transport calls are external; their outcomes are
parameters: `.ok payload` for a returned payload, `.error msg` for a
raised exception (`msg` is the exception's string form).  The chat-format
attempt parameter stands for the outcome the fallback call would have;
the embedding consults it only on the agent-format error path, mirroring
the source's control flow. -/

/-- Build `{"role": "assistant", "content": content, "raw_response": raw}`. -/
def mkAssistantMsg (content : String) (raw : Value) : Value :=
  .obj [("role", .str "assistant"), ("content", .str content), ("raw_response", raw)]

/-- Classification of a successful agent-format reply: probe `output`,
`content`, `text`, `result` in order, stringify the first present value
as the flattened content, and keep the full payload under
`raw_response`; non-dict payloads and dicts with none of the keys are
stringified whole. -/
def agent_classify (res : Value) : Value :=
  match res with
  | .obj kvs =>
    if Value.hasKeyB kvs "output" then
      mkAssistantMsg (pyStr (Value.getD res "output" .null)) res
    else if Value.hasKeyB kvs "content" then
      mkAssistantMsg (pyStr (Value.getD res "content" .null)) res
    else if Value.hasKeyB kvs "text" then
      mkAssistantMsg (pyStr (Value.getD res "text" .null)) res
    else if Value.hasKeyB kvs "result" then
      mkAssistantMsg (pyStr (Value.getD res "result" .null)) res
    else
      mkAssistantMsg (pyStr res) res
  | _ => mkAssistantMsg (pyStr res) res

/-- Python `"".join([part.get("text", "") for part in content if
part.get("type") == "text"])`: raises when a part is not a dict or a
collected text is not a string. -/
def joinTextPartsE : List Value → Except Unit String
  | [] => .ok ""
  | p :: rest =>
    match p with
    | .obj _ =>
      match joinTextPartsE rest with
      | .error e => .error e
      | .ok restS =>
        if Value.getD p "type" .null == Value.str "text" then
          match Value.getD p "text" (.str "") with
          | .str s => .ok (s ++ restS)
          | _ => .error ()
        else .ok restS
    | _ => .error ()

/-- Classification of a successful chat-format reply: `messages` last
element (or a literal "No response" turn), else `choices[0].message`
with typed-part concatenation for list content, else the stringified
payload; `.error` marks a raised exception inside this classification,
which the source's handler catches. -/
def chat_classify (res : Value) : Except Unit Value := do
  let hasMsgs ← pyInE "messages" res
  if hasMsgs then do
    let msgs ← getItemStrE res "messages"
    if pyTruthy msgs then getItemLastE msgs
    else pure (.obj [("role", .str "assistant"), ("content", .str "No response")])
  else do
    let hasChoices ← pyInE "choices" res
    if hasChoices then do
      let choices ← getItemStrE res "choices"
      let c0 ← getItemFirstE choices
      let choice_message ← getItemStrE c0 "message"
      let choice_content ←
        match choice_message with
        | .obj _ => Except.ok (Value.getD choice_message "content" .null)
        | _ => Except.error ()
      match choice_content with
      | .arr parts => do
        let combined ← joinTextPartsE parts
        pure (.obj [("role", Value.getD choice_message "role" (.str "assistant")),
                    ("content", .str combined)])
      | .str _ => pure choice_message
      | other => pure (.obj [("role", .str "assistant"), ("content", .str (pyStr other))])
    else
      pure (.obj [("role", .str "assistant"), ("content", .str (pyStr res))])

/-- Embedding of `query_endpoint`: try the agent-format attempt; on its success
classify its payload.  If it raised, consult the chat-format attempt; a
chat success is classified (an exception inside that classification is
caught by the same handler as a chat failure), and when both paths fail
the raised message carries the agent-format error preferentially. -/
def query_endpoint (endpoint_name : String)
    (agentAttempt chatAttempt : Except String Value) : Except String Value :=
  match agentAttempt with
  | .ok res => .ok (agent_classify res)
  | .error custom_error =>
    match chatAttempt with
    | .ok res =>
      match chat_classify res with
      | .ok msg => .ok msg
      | .error _ =>
        .error ("Failed to query endpoint " ++ endpoint_name
          ++ " with custom format: " ++ custom_error)
    | .error _ =>
      .error ("Failed to query endpoint " ++ endpoint_name
        ++ " with custom format: " ++ custom_error)

/-! `extract_content_from_stream` -/

/-- Format 1: OpenAI-style `choices[0].delta.content`; `choices[0]` is
computed before the delta probe, so an empty or malformed `choices`
raises. -/
def extract_fmt1 (chunk : Value) : Except Unit (Option Value) :=
  match pyInE "choices" chunk with
  | .error e => .error e
  | .ok false => .ok none
  | .ok true =>
    match getItemStrE chunk "choices" with
    | .error e => .error e
    | .ok choices =>
      match getItemFirstE choices with
      | .error e => .error e
      | .ok c0 =>
        match c0 with
        | .obj _ =>
          match pyInE "content" (Value.getD c0 "delta" (.obj [])) with
          | .error e => .error e
          | .ok true => getItemStrE (Value.getD c0 "delta" (.obj [])) "content" |>.map some
          | .ok false => .ok none
        | _ => .error ()

/-- Format 2: top-level `content`, a plain string or a typed-part list. -/
def extract_fmt2 (chunk : Value) : Except Unit (Option Value) :=
  match pyInE "content" chunk with
  | .error e => .error e
  | .ok false => .ok none
  | .ok true =>
    match getItemStrE chunk "content" with
    | .error e => .error e
    | .ok (.str s) => .ok (some (.str s))
    | .ok (.arr parts) =>
      match joinTextPartsE parts with
      | .error e => .error e
      | .ok s => .ok (some (.str s))
    | .ok _ => .ok none

/-- Format 3: top-level `text`. -/
def extract_fmt3 (chunk : Value) : Except Unit (Option Value) :=
  match pyInE "text" chunk with
  | .error e => .error e
  | .ok false => .ok none
  | .ok true => getItemStrE chunk "text" |>.map some

/-- Format 4: top-level `output`, a string or a dict with nested `text`
or `content`. -/
def extract_fmt4 (chunk : Value) : Except Unit (Option Value) :=
  match pyInE "output" chunk with
  | .error e => .error e
  | .ok false => .ok none
  | .ok true =>
    match getItemStrE chunk "output" with
    | .error e => .error e
    | .ok (.str s) => .ok (some (.str s))
    | .ok (.obj kvs) =>
      match Value.lookupL kvs "text" with
      | some v => .ok (some v)
      | none =>
        match Value.lookupL kvs "content" with
        | some v => .ok (some v)
        | none => .ok none
    | .ok _ => .ok none

/-- Format 5: top-level `delta`, a string or a dict with `content`. -/
def extract_fmt5 (chunk : Value) : Except Unit (Option Value) :=
  match pyInE "delta" chunk with
  | .error e => .error e
  | .ok false => .ok none
  | .ok true =>
    match getItemStrE chunk "delta" with
    | .error e => .error e
    | .ok (.str s) => .ok (some (.str s))
    | .ok (.obj kvs) =>
      match Value.lookupL kvs "content" with
      | some v => .ok (some v)
      | none => .ok none
    | .ok _ => .ok none

/-- The body of `extract_content_from_stream` inside its `try`: the five
format probes in source order, falling through on a no-match and
propagating any raised exception. -/
def extract_content_E (chunk : Value) : Except Unit (Option Value) :=
  match extract_fmt1 chunk with
  | .error e => .error e
  | .ok (some v) => .ok (some v)
  | .ok none =>
    match extract_fmt2 chunk with
    | .error e => .error e
    | .ok (some v) => .ok (some v)
    | .ok none =>
      match extract_fmt3 chunk with
      | .error e => .error e
      | .ok (some v) => .ok (some v)
      | .ok none =>
        match extract_fmt4 chunk with
        | .error e => .error e
        | .ok (some v) => .ok (some v)
        | .ok none =>
          match extract_fmt5 chunk with
          | .error e => .error e
          | .ok (some v) => .ok (some v)
          | .ok none => .ok none

/-- Embedding of `extract_content_from_stream`: the probe chain with the enclosing
`except` handler, which logs and returns `None` on any exception. -/
def extract_content_from_stream (chunk : Value) : Option Value :=
  match extract_content_E chunk with
  | .ok r => r
  | .error _ => none

/-! The extractor's five shapes as the spec words them

These definitions follow the specification text of the Chunk Content
Extractor (its five priority-ordered shapes), for comparison with the
source-derived `extract_content_from_stream`. -/

/-- Spec shape 1: `choices[0].delta.content`. -/
def spec_shape_choices (c : Value) : Option Value :=
  match c.lookup "choices" with
  | some (.arr (c0 :: _)) =>
    match c0.lookup "delta" with
    | some d => d.lookup "content"
    | none => none
  | _ => none

/-- Spec: concatenate the `text` of the parts tagged `"text"` (a tagged
part without a text string contributes the empty string; untagged parts
contribute nothing). -/
def spec_join_text_parts : List Value → String
  | [] => ""
  | p :: rest =>
    (match p.lookup "type" with
      | some (.str t) =>
        if t = "text" then
          match p.lookup "text" with
          | some (.str s) => s
          | _ => ""
        else ""
      | _ => "") ++ spec_join_text_parts rest

/-- Spec shape 2: top-level `content`, plain string or typed parts. -/
def spec_shape_content (c : Value) : Option Value :=
  match c.lookup "content" with
  | some (.str s) => some (.str s)
  | some (.arr parts) => some (.str (spec_join_text_parts parts))
  | _ => none

/-- Spec shape 3: top-level `text`. -/
def spec_shape_text (c : Value) : Option Value :=
  c.lookup "text"

/-- Spec shape 4: top-level `output`, string or mapping with nested
`text` or `content`. -/
def spec_shape_output (c : Value) : Option Value :=
  match c.lookup "output" with
  | some (.str s) => some (.str s)
  | some (.obj kvs) =>
    match Value.lookupL kvs "text" with
    | some v => some v
    | none => Value.lookupL kvs "content"
  | _ => none

/-- Spec shape 5: top-level `delta`, string or mapping with `content`. -/
def spec_shape_delta (c : Value) : Option Value :=
  match c.lookup "delta" with
  | some (.str s) => some (.str s)
  | some (.obj kvs) => Value.lookupL kvs "content"
  | _ => none

/-- The extractor as the spec describes it: the five shapes tried in
fixed priority order until one matches, `none` otherwise. -/
def extract_spec (c : Value) : Option Value :=
  (spec_shape_choices c).orElse fun _ =>
    (spec_shape_content c).orElse fun _ =>
      (spec_shape_text c).orElse fun _ =>
        (spec_shape_output c).orElse fun _ =>
          spec_shape_delta c

/-! `parse_rag_response`

The parser is embedded with a provenance tag recording which acceptance
check admitted the returned value; `parse_rag_response` itself projects
the tag away.  `.error` marks an exception reaching the function's
catch-all handler, which returns `None`. -/

/-- Which acceptance check admitted the result: the direct mapping check
(both keys), a JSON-decoded string under `content`/`text`/`result` (both
keys, Python `in`), a dict under one of those keys (`query_understanding`
only), a JSON-decoded content-block text (`query_understanding` only),
the regex-extraction fallback (no key check on the parsed value), or a
JSON-decoded plain-string message content (`query_understanding` only). -/
inductive ParseSrc where
  | direct
  | wrappedStr
  | wrappedDict
  | blockJson
  | blockRegex
  | contentStr
deriving DecidableEq

/-- The candidate text of a content block:
`content_block.get('text') or content_block.get('output_text')`. -/
def blockCandidate (b : Value) : Value :=
  let t := Value.getD b "text" .null
  if pyTruthy t then t else Value.getD b "output_text" .null

/-- Processing of one qualifying (truthy, longer than 50 characters)
string candidate: strip the literal code fences, JSON-decode and accept a
dict carrying `query_understanding`; on a decode failure, run the regex
extraction and accept whatever its matched substring decodes to. -/
def try_block_text (s : String) : Option (Value × ParseSrc) :=
  let stripped := pyReplace (pyReplace s "```json" "") "```" ""
  match jsonParse stripped with
  | some parsed =>
    match parsed with
    | .obj kvs =>
      if Value.hasKeyB kvs "query_understanding" then some (.obj kvs, .blockJson)
      else none
    | _ => none
  | none =>
    match reSearchQU stripped with
    | some matched =>
      match jsonParse matched with
      | some parsed => some (parsed, .blockRegex)
      | none => none
    | none => none

/-- Handling of one content block: non-dict blocks and non-qualifying
candidates are skipped (`.ok none`, scanning continues); a truthy
non-string candidate raises (`len` on numbers, `.replace` on
lists/dicts), which the catch-all converts to an overall `None`; a
truthy string candidate longer than 50 characters is processed by
`try_block_text`. -/
def process_block1 (b : Value) : Except Unit (Option (Value × ParseSrc)) :=
  match b with
  | .obj _ =>
    if pyTruthy (blockCandidate b) then
      match pyLenE (blockCandidate b) with
      | .error _ => .error ()
      | .ok len =>
        if len > 50 then
          match blockCandidate b with
          | .str s =>
            match try_block_text s with
            | some r => .ok (some r)
            | none => .ok none
          | _ => .error ()
        else .ok none
    else .ok none
  | _ => .ok none

/-- Scan the content blocks of one assistant message in order, stopping
at the first accepted candidate and propagating raised exceptions. -/
def process_blocks : List Value → Except Unit (Option (Value × ParseSrc))
  | [] => .ok none
  | b :: rest =>
    match process_block1 b with
    | .error e => .error e
    | .ok (some r) => .ok (some r)
    | .ok none => process_blocks rest

/-- Processing of one list element: only dicts tagged
`type == "message"` and `role == "assistant"` are inspected; their
`content` is scanned as blocks when a list, or JSON-decoded directly when
a plain string (accepting a dict with `query_understanding`). -/
def process_item (item : Value) : Except Unit (Option (Value × ParseSrc)) :=
  match item with
  | .obj _ =>
    if Value.getD item "type" .null == Value.str "message"
        && Value.getD item "role" .null == Value.str "assistant" then
      match Value.getD item "content" (.arr []) with
      | .arr blocks => process_blocks blocks
      | .str s =>
        match jsonParse s with
        | some (.obj kvs) =>
          if Value.hasKeyB kvs "query_understanding" then
            .ok (some (.obj kvs, .contentStr))
          else .ok none
        | _ => .ok none
      | _ => .ok none
    else .ok none
  | _ => .ok none

/-- Scan a message sequence for the first qualifying element; the source
iterates `reversed(response)`, so callers pass the reversed list. -/
def scan_items : List Value → Except Unit (Option (Value × ParseSrc))
  | [] => .ok none
  | item :: rest =>
    match process_item item with
    | .error e => .error e
    | .ok (some r) => .ok (some r)
    | .ok none => scan_items rest

/-- Outcome of probing the wrapper keys `content`/`text`/`result`: an
early return, a handoff of a list value into the list branch, or falling
through with the working value unchanged. -/
inductive ProbeOut where
  | ret (v : Value) (src : ParseSrc)
  | handoff (xs : List Value)
  | fallthrough

/-- The `for key in ['content', 'text', 'result']` probe over a dict
working value: a string value is JSON-decoded and accepted when it
carries both required fields under Python `in` (which raises on
non-container decode results); a dict value carrying
`query_understanding` is accepted directly; a list value is adopted as
the new working value; anything else moves to the next key. -/
def probe_wrapped (response : Value) : List String → Except Unit ProbeOut
  | [] => .ok .fallthrough
  | key :: rest =>
    if (Value.lookup response key).isSome then
      match Value.getD response key .null with
      | .str s =>
        match jsonParse s with
        | some parsed =>
          match pyInE "query_understanding" parsed with
          | .error _ => .error ()
          | .ok true =>
            match pyInE "results" parsed with
            | .error _ => .error ()
            | .ok true => .ok (.ret parsed .wrappedStr)
            | .ok false => probe_wrapped response rest
          | .ok false => probe_wrapped response rest
        | none => probe_wrapped response rest
      | .obj kvs =>
        if Value.hasKeyB kvs "query_understanding" then
          .ok (.ret (.obj kvs) .wrappedDict)
        else probe_wrapped response rest
      | .arr xs => .ok (.handoff xs)
      | _ => probe_wrapped response rest
    else probe_wrapped response rest

/-- The strategy cascade on the working value after envelope unwrapping
and string decoding: the dict branch (direct acceptance, `output`-list
handoff, wrapper-key probing) and the list branch (reverse scan); any
other type reaches the failure logging and yields `None`. -/
def parse_structured (response : Value) : Except Unit (Option (Value × ParseSrc)) :=
  match response with
  | .obj kvs =>
    if Value.hasKeyB kvs "query_understanding" && Value.hasKeyB kvs "results" then
      .ok (some (.obj kvs, .direct))
    else
      match Value.lookupL kvs "output" with
      | some (.arr out) => scan_items out.reverse
      | _ =>
        match probe_wrapped (.obj kvs) ["content", "text", "result"] with
        | .error e => .error e
        | .ok (.ret v src) => .ok (some (v, src))
        | .ok (.handoff xs) => scan_items xs.reverse
        | .ok .fallthrough => .ok none
  | .arr xs => scan_items xs.reverse
  | _ => .ok none

/-- Envelope unwrapping: a dict with a `raw_response` key is replaced by
that nested value. -/
def unwrap_raw (response : Value) : Value :=
  match response with
  | .obj kvs =>
    match Value.lookupL kvs "raw_response" with
    | some inner => inner
    | none => response
  | _ => response

/-- Embedding of `parse_rag_response` with provenance: unwrap a `raw_response`
envelope, JSON-decode a string working value (failing with `None` when
it is not JSON), then run the strategy cascade. -/
def parse_rag_responseT (response : Value) : Except Unit (Option (Value × ParseSrc)) :=
  match unwrap_raw response with
  | .str s =>
    match jsonParse s with
    | some decoded => parse_structured decoded
    | none => .ok none
  | other => parse_structured other

/-- Embedding of `parse_rag_response`: the tagged parser with the provenance dropped
and the catch-all `except` handler applied (any internal exception
becomes `None`). -/
def parse_rag_response (response : Value) : Option Value :=
  match parse_rag_responseT response with
  | .ok (some (r, _)) => some r
  | .ok none => none
  | .error _ => none

/-! Concrete payloads and skip predicates used by the claims -/

/-- The list-branch reply whose only candidate text embeds the target
JSON object amid prose that continues past the closing brace. -/
def proseThanksReply : Value :=
  .arr [.obj [("type", .str "message"), ("role", .str "assistant"),
    ("content", .arr [.obj [("text", .str
      "Here are results: \x7b\"query_understanding\":\"x\",\"results\":[\x7b\"rank\":1\x7d]\x7d Thanks")]])]]

/-- The same reply with the prose ending exactly at the closing brace. -/
def proseEndReply : Value :=
  .arr [.obj [("type", .str "message"), ("role", .str "assistant"),
    ("content", .arr [.obj [("text", .str
      "Here are results: \x7b\"query_understanding\":\"x\",\"results\":[\x7b\"rank\":1\x7d]\x7d")]])]]

/-- An early assistant message with a short non-JSON text. -/
def shortHelloMsg : Value :=
  .obj [("type", .str "message"), ("role", .str "assistant"),
    ("content", .arr [.obj [("text", .str "hello")]])]

/-- A later assistant message with a JSON-fence-wrapped document. -/
def fencedDocMsg : Value :=
  .obj [("type", .str "message"), ("role", .str "assistant"),
    ("content", .arr [.obj [("text", .str
      "```json\n\x7b\"query_understanding\":\"x\",\"results\":[]\x7d\n```")]])]

/-- A content block whose effective candidate text is absent, falsy, or
a string of at most 50 characters (the shapes the length heuristic
skips). -/
def shortBlock (b : Value) : Bool :=
  match b with
  | .obj _ =>
    if pyTruthy (blockCandidate b) then
      match blockCandidate b with
      | .str s => decide (s.length ≤ 50)
      | _ => false
    else true
  | _ => true

/-- A list element that contributes no parsed candidate: either it is
not an assistant message, or its content is a block list whose every
candidate text is short (at most 50 characters) or absent. -/
def shortBlockOnly (item : Value) : Bool :=
  match item with
  | .obj _ =>
    if Value.getD item "type" .null == Value.str "message"
        && Value.getD item "role" .null == Value.str "assistant" then
      match Value.getD item "content" (.arr []) with
      | .arr blocks => blocks.all shortBlock
      | _ => false
    else true
  | _ => true

/-! Claim theorems -/

/-- C9: if the endpoint metadata lookup raises any exception,
`is_endpoint_supported` returns `True` (fails open); the function is
total, so no exception propagates to the caller. -/
theorem is_endpoint_supported_fails_open :
    ∀ e : String, is_endpoint_supported (.error e) = true :=
  fun _ => rfl

/-- C6: the agent-format attempt is authoritative when it succeeds (the
chat-format outcome is never consulted); after an agent-format failure a
chat-format success carrying a well-formed `choices` payload is returned
without raising; and when both attempts fail the raised message carries
the agent-format (step-1) failure detail. -/
theorem query_endpoint_fallback_cascade :
    (∀ (name : String) (res : Value) (chat chat' : Except String Value),
      query_endpoint name (.ok res) chat = query_endpoint name (.ok res) chat')
    ∧ (∀ (name e1 role content : String),
      query_endpoint name (.error e1)
        (.ok (.obj [("choices", .arr [.obj [("message",
          .obj [("role", .str role), ("content", .str content)])]])]))
        = .ok (.obj [("role", .str role), ("content", .str content)]))
    ∧ (∀ (name e1 e2 : String),
      query_endpoint name (.error e1) (.error e2)
        = .error ("Failed to query endpoint " ++ name
            ++ " with custom format: " ++ e1)) :=
  ⟨fun _ _ _ _ => rfl, fun _ _ _ _ => rfl, fun _ _ _ => rfl⟩

/-- C7: for every SSE line of a streamed text chunk, a `data: ` line
whose remainder strips to the `[DONE]` sentinel yields no fragment; a
`data: ` line whose remainder is not valid JSON is skipped without
aborting; a `data: ` line with a JSON remainder yields exactly that
fragment; non-`data: ` lines yield nothing; and a chunk's fragments are
the concatenation of its lines' fragments. -/
theorem stream_line_handling :
    (∀ line : String, leadsWith "data: ".data line.data = true →
      pyStrip (String.mk (line.data.drop 6)) = "[DONE]" →
      process_sse_line line = [])
    ∧ (∀ line : String, leadsWith "data: ".data line.data = true →
      pyStrip (String.mk (line.data.drop 6)) ≠ "[DONE]" →
      jsonParse (String.mk (line.data.drop 6)) = none →
      process_sse_line line = [])
    ∧ (∀ (line : String) (v : Value), leadsWith "data: ".data line.data = true →
      pyStrip (String.mk (line.data.drop 6)) ≠ "[DONE]" →
      jsonParse (String.mk (line.data.drop 6)) = some v →
      process_sse_line line = [v])
    ∧ (∀ line : String, leadsWith "data: ".data line.data = false →
      process_sse_line line = [])
    ∧ (∀ chunk : String, query_endpoint_stream_chunk chunk
        = (pySplitNl (pyStrip chunk)).foldr
            (fun l acc => process_sse_line l ++ acc) []) := by
  refine ⟨fun line h1 h2 => ?_, fun line h1 h2 h3 => ?_,
    fun line v h1 h2 h3 => ?_, fun line h1 => ?_, fun _ => rfl⟩
  · simp [process_sse_line, h1, h2]
  · simp [process_sse_line, h1, h2, h3]
  · simp [process_sse_line, h1, h2, h3]
  · simp [process_sse_line, h1]

/-- C7 witness: the three line shapes at concrete inputs. -/
theorem stream_line_handling_witness :
    process_sse_line "data: [DONE]" = []
    ∧ process_sse_line "data: oops" = []
    ∧ process_sse_line "data: \x7b\"a\":1\x7d" = [.obj [("a", .num 1)]] :=
  ⟨stream_line_handling.1 "data: [DONE]" (by decide) (by decide),
   stream_line_handling.2.1 "data: oops" (by decide) (by decide) rfl,
   stream_line_handling.2.2.1 "data: \x7b\"a\":1\x7d" (.obj [("a", .num 1)])
     (by decide) (by decide) rfl⟩

/-- C3 counterexample: after an agent-format failure, a chat-format
`choices` success is returned as the choice's message, which carries no
`raw_response` field — refuting the claim that every returned message
mapping contains one. -/
theorem query_endpoint_chat_message_lacks_raw_response :
    query_endpoint "ep" (.error "agent failure")
      (.ok (.obj [("choices", .arr [.obj [("message",
        .obj [("role", .str "assistant"), ("content", .str "hi")])]])]))
      = .ok (.obj [("role", .str "assistant"), ("content", .str "hi")])
    ∧ Value.lookup (.obj [("role", .str "assistant"), ("content", .str "hi")])
        "raw_response" = none :=
  ⟨rfl, rfl⟩

/-- C3 amended: every message returned from the agent-format path
carries `raw_response` holding the original raw payload (the chat-format
fallback cases return messages without adding it). -/
theorem query_endpoint_agent_path_raw_response :
    ∀ (name : String) (res : Value) (chat : Except String Value) (m : Value),
      query_endpoint name (.ok res) chat = .ok m →
      Value.lookup m "raw_response" = some res := by
  intro name res chat m h
  simp only [query_endpoint, Except.ok.injEq] at h
  subst h
  cases res with
  | obj kvs =>
    simp only [agent_classify]
    split_ifs <;> rfl
  | null => rfl
  | bool b => rfl
  | num n => rfl
  | str s => rfl
  | arr xs => rfl

/-- C3 amended witness: the agent path at a concrete payload. -/
theorem query_endpoint_agent_path_raw_response_witness :
    Value.lookup (agent_classify (.obj [("output", .str "ans")]))
      "raw_response" = some (.obj [("output", .str "ans")]) :=
  query_endpoint_agent_path_raw_response "ep" (.obj [("output", .str "ans")])
    (.error "unused") (agent_classify (.obj [("output", .str "ans")])) rfl

/-- C10: at the payload `{"content": "[\"query_understanding\",
\"results\"]"}` the decoded wrapper value is a list, Python `in` tests
list membership, both checks pass, and `parse_rag_response` returns the
list — not a mapping — contradicting its own declared
`Optional[dict]` contract. -/
theorem parse_rag_response_returns_non_mapping :
    parse_rag_response
      (.obj [("content", .str "[\"query_understanding\", \"results\"]")])
      = some (.arr [.str "query_understanding", .str "results"]) :=
  rfl

/-- C1 counterexample: a dict value under the `content` wrapper key is
accepted when it carries `query_understanding` alone, so the returned
mapping lacks `results` — refuting the claim that every returned mapping
contains both required keys. -/
theorem parse_rag_response_accepts_without_results :
    parse_rag_response (.obj [("content", .obj [("query_understanding", .str "x")])])
      = some (.obj [("query_understanding", .str "x")])
    ∧ Value.lookup (.obj [("query_understanding", .str "x")]) "results" = none :=
  ⟨rfl, rfl⟩



/-- C2 counterexample: on the candidate text ending in ` Thanks` the
end-anchored regex finds no match, so `parse_rag_response` returns
`none` — refuting the claim that the embedded object is recovered. -/
theorem parse_regex_fallback_trailing_prose :
    parse_rag_response proseThanksReply = none :=
  rfl

/-- C2 amended: the regex fallback recovers the embedded object only
when the match can end at the end of the candidate text; for the same
prose-prefixed candidate ending at the closing brace, the embedded
object is recovered. -/
theorem parse_regex_fallback_end_anchored :
    parse_rag_response proseEndReply
      = some (.obj [("query_understanding", .str "x"),
          ("results", .arr [.obj [("rank", .num 1)]])]) :=
  rfl

/-- C4: in the list branch, whenever the final element of the sequence
is a qualifying assistant message (its processing accepts a document
`r`), the parser returns `r`, regardless of every earlier element — the
scan starts from the end of the sequence. -/
theorem parse_list_scan_recency :
    ∀ (xs : List Value) (item r : Value) (src : ParseSrc),
      process_item item = .ok (some (r, src)) →
      parse_rag_response (.arr (xs ++ [item])) = some r := by
  intro xs item r src h
  simp [parse_rag_response, parse_rag_responseT, unwrap_raw, parse_structured, scan_items, h]



/-- C4 witness: with the short non-JSON message first and the qualifying
fenced document last, the parser returns the later document. -/
theorem parse_list_scan_recency_witness :
    process_item fencedDocMsg
      = .ok (some (.obj [("query_understanding", .str "x"), ("results", .arr [])],
          .blockJson))
    ∧ parse_rag_response (.arr ([shortHelloMsg] ++ [fencedDocMsg]))
      = some (.obj [("query_understanding", .str "x"), ("results", .arr [])]) :=
  ⟨rfl, parse_list_scan_recency [shortHelloMsg] fencedDocMsg _ .blockJson rfl⟩



theorem process_block1_short (b : Value) (h : shortBlock b = true) :
    process_block1 b = .ok none := by
  cases b with
  | obj kvs =>
    simp only [shortBlock] at h
    simp only [process_block1]
    split
    case isTrue ht =>
      rw [if_pos ht] at h
      cases hc : blockCandidate (.obj kvs) with
      | str s =>
        rw [hc] at h
        have hle : s.length ≤ 50 := of_decide_eq_true h
        simp only [pyLenE, hc]
        rw [if_neg (by omega : ¬ s.length > 50)]
      | null => rw [hc] at h; exact absurd h (by simp)
      | bool b' => rw [hc] at h; exact absurd h (by simp)
      | num n => rw [hc] at h; exact absurd h (by simp)
      | arr xs => rw [hc] at h; exact absurd h (by simp)
      | obj kvs' => rw [hc] at h; exact absurd h (by simp)
    case isFalse ht => rfl
  | null => rfl
  | bool b' => rfl
  | num n => rfl
  | str s => rfl
  | arr xs => rfl

theorem process_blocks_short (bs : List Value)
    (h : ∀ b ∈ bs, shortBlock b = true) : process_blocks bs = .ok none := by
  induction bs with
  | nil => rfl
  | cons b rest ih =>
    have hb := process_block1_short b (h b (List.mem_cons_self b rest))
    have hr := ih (fun x hx => h x (List.mem_cons_of_mem _ hx))
    simp [process_blocks, hb, hr]

theorem process_item_short (item : Value) (h : shortBlockOnly item = true) :
    process_item item = .ok none := by
  cases item with
  | obj kvs =>
    simp only [shortBlockOnly] at h
    simp only [process_item]
    split
    case isTrue ht =>
      rw [if_pos ht] at h
      cases hc : Value.getD (.obj kvs) "content" (.arr []) with
      | arr blocks =>
        rw [hc] at h
        exact process_blocks_short blocks (List.all_eq_true.mp h)
      | str s => rw [hc] at h; exact absurd h (by simp)
      | _ => rw [hc] at h
    case isFalse ht => rfl
  | null => rfl
  | bool b' => rfl
  | num n => rfl
  | str s => rfl
  | arr xs => rfl

theorem scan_items_short (ys : List Value)
    (h : ∀ i ∈ ys, shortBlockOnly i = true) : scan_items ys = .ok none := by
  induction ys with
  | nil => rfl
  | cons i rest ih =>
    have hi := process_item_short i (h i (List.mem_cons_self i rest))
    have hr := ih (fun x hx => h x (List.mem_cons_of_mem _ hx))
    simp [scan_items, hi, hr]

/-- C5: in the list branch, every content-block candidate text of at
most 50 characters is skipped without being parsed (whatever it
contains, including valid JSON with the required keys), and a list whose
assistant messages carry only such block candidates parses to `None`. -/
theorem parse_short_candidates_skipped :
    ∀ xs : List Value, (∀ item ∈ xs, shortBlockOnly item = true) →
      parse_rag_response (.arr xs) = none := by
  intro xs h
  have hscan := scan_items_short xs.reverse
    (fun i hi => h i (List.mem_reverse.mp hi))
  simp [parse_rag_response, parse_rag_responseT, unwrap_raw, parse_structured, hscan]

/-- C5 witness: a 37-character candidate that is valid JSON carrying
both required keys is nevertheless skipped, and with no other candidate
the parse fails. -/
theorem parse_short_candidates_skipped_witness :
    shortBlockOnly (.obj [("type", .str "message"), ("role", .str "assistant"),
      ("content", .arr [.obj [("text", .str
        "\x7b\"query_understanding\":1,\"results\":2\x7d")]])]) = true
    ∧ parse_rag_response (.arr [.obj [("type", .str "message"),
        ("role", .str "assistant"),
        ("content", .arr [.obj [("text", .str
          "\x7b\"query_understanding\":1,\"results\":2\x7d")]])]]) = none := by
  refine ⟨by decide, parse_short_candidates_skipped _ ?_⟩
  intro item hitem
  rcases List.mem_singleton.mp hitem with rfl
  decide

theorem try_block_text_qu {s : String} {r : Value} {src : ParseSrc}
    (h : try_block_text s = some (r, src)) (hsrc : src ≠ ParseSrc.blockRegex) :
    pyInE "query_understanding" r = .ok true := by
  simp only [try_block_text] at h
  split at h
  case h_1 parsed heq =>
    split at h
    case h_1 kvs =>
      split at h
      case isTrue hk =>
        obtain ⟨rfl, rfl⟩ := Prod.mk.injEq .. ▸ (Option.some.injEq .. ▸ h)
        simp [pyInE, hk]
      case isFalse => exact absurd h (by simp)
    case h_2 => exact absurd h (by simp)
  case h_2 heq =>
    split at h
    case h_1 matched hm =>
      split at h
      case h_1 parsed hp =>
        obtain ⟨rfl, rfl⟩ := Prod.mk.injEq .. ▸ (Option.some.injEq .. ▸ h)
        exact absurd rfl hsrc
      case h_2 => exact absurd h (by simp)
    case h_2 => exact absurd h (by simp)

theorem process_block1_qu {b r : Value} {src : ParseSrc}
    (h : process_block1 b = .ok (some (r, src))) (hsrc : src ≠ ParseSrc.blockRegex) :
    pyInE "query_understanding" r = .ok true := by
  unfold process_block1 at h
  split at h
  case h_1 =>
    split at h
    case isTrue =>
      split at h
      case h_1 => exact absurd h (by simp)
      case h_2 =>
        split at h
        case isTrue =>
          split at h
          case h_1 s hs =>
            split at h
            case h_1 p hp =>
              simp only [Except.ok.injEq, Option.some.injEq] at h
              exact try_block_text_qu (h ▸ hp) hsrc
            case h_2 => exact absurd h (by simp)
          case h_2 => exact absurd h (by simp)
        case isFalse => exact absurd h (by simp)
    case isFalse => exact absurd h (by simp)
  case h_2 => exact absurd h (by simp)

theorem process_blocks_qu {bs : List Value} {r : Value} {src : ParseSrc}
    (h : process_blocks bs = .ok (some (r, src))) (hsrc : src ≠ ParseSrc.blockRegex) :
    pyInE "query_understanding" r = .ok true := by
  induction bs with
  | nil => exact absurd h (by simp [process_blocks])
  | cons b rest ih =>
    rw [process_blocks] at h
    split at h
    case h_1 => exact absurd h (by simp)
    case h_2 r' heq =>
      simp only [Except.ok.injEq, Option.some.injEq] at h
      exact process_block1_qu (h ▸ heq) hsrc
    case h_3 => exact ih h

theorem process_item_qu {item r : Value} {src : ParseSrc}
    (h : process_item item = .ok (some (r, src))) (hsrc : src ≠ ParseSrc.blockRegex) :
    pyInE "query_understanding" r = .ok true := by
  unfold process_item at h
  split at h
  case h_1 =>
    split at h
    case isTrue =>
      split at h
      case h_1 blocks hb => exact process_blocks_qu h hsrc
      case h_2 s hs =>
        split at h
        case h_1 kvs hk =>
          split at h
          case isTrue hkey =>
            simp only [Except.ok.injEq, Option.some.injEq, Prod.mk.injEq] at h
            obtain ⟨rfl, rfl⟩ := h
            simp [pyInE, hkey]
          case isFalse => exact absurd h (by simp)
        case h_2 => exact absurd h (by simp)
      case h_3 => exact absurd h (by simp)
    case isFalse => exact absurd h (by simp)
  case h_2 => exact absurd h (by simp)

theorem scan_items_qu {ys : List Value} {r : Value} {src : ParseSrc}
    (h : scan_items ys = .ok (some (r, src))) (hsrc : src ≠ ParseSrc.blockRegex) :
    pyInE "query_understanding" r = .ok true := by
  induction ys with
  | nil => exact absurd h (by simp [scan_items])
  | cons i rest ih =>
    rw [scan_items] at h
    split at h
    case h_1 => exact absurd h (by simp)
    case h_2 r' heq =>
      simp only [Except.ok.injEq, Option.some.injEq] at h
      exact process_item_qu (h ▸ heq) hsrc
    case h_3 => exact ih h

theorem probe_wrapped_qu {resp : Value} {keys : List String} {v : Value} {src : ParseSrc}
    (h : probe_wrapped resp keys = .ok (.ret v src)) :
    pyInE "query_understanding" v = .ok true ∧ src ≠ ParseSrc.blockRegex := by
  induction keys with
  | nil => exact absurd h (by simp [probe_wrapped])
  | cons key rest ih =>
    rw [probe_wrapped] at h
    split at h
    case isFalse => exact ih h
    case isTrue =>
      split at h
      · -- the value under the key is a string
        split at h
        · -- jsonParse succeeded
          split at h
          · exact absurd h (by simp)
          · -- query_understanding membership held
            rename_i hq
            split at h
            · exact absurd h (by simp)
            · -- results membership held: early return
              simp only [Except.ok.injEq, ProbeOut.ret.injEq] at h
              obtain ⟨rfl, rfl⟩ := h
              exact ⟨hq, by simp⟩
            · exact ih h
          · exact ih h
        · exact ih h
      · -- the value under the key is a dict
        split at h
        · rename_i hkey
          simp only [Except.ok.injEq, ProbeOut.ret.injEq] at h
          obtain ⟨rfl, rfl⟩ := h
          exact ⟨by simp [pyInE, hkey], by simp⟩
        · exact ih h
      · exact absurd h (by simp)
      · exact ih h

theorem parse_structured_qu {w r : Value} {src : ParseSrc}
    (h : parse_structured w = .ok (some (r, src))) (hsrc : src ≠ ParseSrc.blockRegex) :
    pyInE "query_understanding" r = .ok true := by
  unfold parse_structured at h
  split at h
  · -- dict branch
    split at h
    · -- direct acceptance
      rename_i hkeys
      simp only [Except.ok.injEq, Option.some.injEq, Prod.mk.injEq] at h
      obtain ⟨rfl, rfl⟩ := h
      simp [pyInE, (Bool.and_eq_true .. ▸ hkeys).1]
    · -- output handoff or wrapper probing
      split at h
      · exact scan_items_qu h hsrc
      · split at h
        · exact absurd h (by simp)
        · rename_i hp
          simp only [Except.ok.injEq, Option.some.injEq, Prod.mk.injEq] at h
          obtain ⟨rfl, rfl⟩ := h
          exact (probe_wrapped_qu hp).1
        · exact scan_items_qu h hsrc
        · exact absurd h (by simp)
  · exact scan_items_qu h hsrc
  · exact absurd h (by simp)

/-- C1 amended: every value returned by `parse_rag_response` satisfies
the Python membership test for `query_understanding` (dict key, list
element, or substring), unless it was produced by the regex-extraction
fallback, whose acceptance checks only the matched source text; the
`results` key is checked only by the direct-mapping and decoded-wrapper
acceptance branches. -/
theorem parse_accept_requires_query_understanding :
    ∀ (input r : Value) (src : ParseSrc),
      parse_rag_responseT input = .ok (some (r, src)) →
      src ≠ ParseSrc.blockRegex →
      pyInE "query_understanding" r = .ok true := by
  intro input r src h hsrc
  unfold parse_rag_responseT at h
  split at h
  · -- the working value is a string: it must decode
    split at h
    · exact parse_structured_qu h hsrc
    · exact absurd h (by simp)
  · exact parse_structured_qu h hsrc

/-- C1 amended witness: the direct-acceptance branch at a concrete
payload carrying both keys. -/
theorem parse_accept_requires_query_understanding_witness :
    parse_rag_responseT (.obj [("query_understanding", .str "x"), ("results", .arr [])])
      = .ok (some (.obj [("query_understanding", .str "x"), ("results", .arr [])],
          .direct))
    ∧ pyInE "query_understanding"
        (.obj [("query_understanding", .str "x"), ("results", .arr [])]) = .ok true :=
  ⟨rfl, parse_accept_requires_query_understanding
    (.obj [("query_understanding", .str "x"), ("results", .arr [])]) _ .direct rfl
    (by decide)⟩

theorem getItemStrE_ok {v x : Value} {k : String} (h : getItemStrE v k = .ok x) :
    v.lookup k = some x := by
  unfold getItemStrE at h
  split at h
  · split at h
    · rename_i y hy
      simp only [Except.ok.injEq] at h
      subst h
      simpa [Value.lookup] using hy
    · exact absurd h (by simp)
  · exact absurd h (by simp)

theorem pyInE_false_lookup {k : String} {v : Value} (h : pyInE k v = .ok false) :
    v.lookup k = none := by
  cases v with
  | obj kvs =>
    simp only [pyInE, Except.ok.injEq] at h
    cases hl : Value.lookupL kvs k with
    | none => simp [Value.lookup, hl]
    | some x => simp [Value.hasKeyB, hl] at h
  | str s => rfl
  | arr xs => rfl
  | null => simp [pyInE] at h
  | bool b => simp [pyInE] at h
  | num n => simp [pyInE] at h

theorem fmt1_spec {c : Value} {o : Option Value} (h : extract_fmt1 c = .ok o) :
    o = spec_shape_choices c := by
  unfold extract_fmt1 at h
  split at h
  · exact absurd h (by simp)
  · -- membership probe said no
    rename_i hb
    simp only [Except.ok.injEq] at h
    subst h
    simp [spec_shape_choices, pyInE_false_lookup hb]
  · -- membership probe said yes
    split at h
    · exact absurd h (by simp)
    · rename_i choices hch
      split at h
      · exact absurd h (by simp)
      · rename_i c0 h0
        split at h
        · rename_i kvs0
          have hlc : c.lookup "choices" = some choices := getItemStrE_ok hch
          -- choices must be a list headed by the dict c0
          cases choices with
          | arr xs =>
            cases xs with
            | nil => exact absurd h0 (by simp [getItemFirstE])
            | cons hd tl =>
              simp only [getItemFirstE, Except.ok.injEq] at h0
              subst h0
              simp only [spec_shape_choices, hlc]
              split at h
              · exact absurd h (by simp)
              · -- delta carries content
                rename_i hin
                cases hd0 : Value.lookupL kvs0 "delta" with
                | none => rw [show Value.getD (.obj kvs0) "delta" (.obj []) = .obj []
                    from by simp [Value.getD, Value.lookup, hd0]] at hin
                          simp [pyInE, Value.hasKeyB, Value.lookupL] at hin
                | some d =>
                  rw [show Value.getD (.obj kvs0) "delta" (.obj []) = d
                    from by simp [Value.getD, Value.lookup, hd0]] at h
                  cases hg : getItemStrE d "content" with
                  | error e => rw [hg] at h; exact absurd h (by simp [Except.map])
                  | ok v =>
                    rw [hg] at h
                    simp only [Except.map, Except.ok.injEq] at h
                    subst h
                    simp only [spec_shape_choices, hlc, Value.lookup, hd0]
                    exact (getItemStrE_ok hg).symm
              · -- delta carries no content
                rename_i hin
                simp only [Except.ok.injEq] at h
                subst h
                cases hd0 : Value.lookupL kvs0 "delta" with
                | none => simp [Value.lookup, hd0]
                | some d =>
                  rw [show Value.getD (.obj kvs0) "delta" (.obj []) = d
                    from by simp [Value.getD, Value.lookup, hd0]] at hin
                  simp only [spec_shape_choices, hlc, Value.lookup, hd0]
                  exact (pyInE_false_lookup hin).symm
          | str s =>
            cases hs : s.data with
            | nil => simp [getItemFirstE, hs] at h0
            | cons ch rest => simp [getItemFirstE, hs] at h0
          | null => exact absurd h0 (by simp [getItemFirstE])
          | bool b => exact absurd h0 (by simp [getItemFirstE])
          | num n => exact absurd h0 (by simp [getItemFirstE])
          | obj kvsc => exact absurd h0 (by simp [getItemFirstE])
        · exact absurd h (by simp)

theorem beq_str_true {v : Value} {t : String} (h : (v == Value.str t) = true) :
    v = .str t := by
  have h' : Value.beq v (.str t) = true := h
  cases v with
  | str a => simp only [Value.beq, beq_iff_eq] at h'; subst h'; rfl
  | null => simp [Value.beq] at h'
  | bool b => simp [Value.beq] at h'
  | num n => simp [Value.beq] at h'
  | arr xs => simp [Value.beq] at h'
  | obj kvs => simp [Value.beq] at h'

theorem getD_null_eq {v x : Value} {k : String}
    (h : Value.getD v k .null = x) (hx : x ≠ .null) : v.lookup k = some x := by
  unfold Value.getD at h
  split at h
  · rename_i y hy; subst h; exact hy
  · exact absurd h.symm hx

theorem joinTextPartsE_spec : ∀ {parts : List Value} {s : String},
    joinTextPartsE parts = .ok s → s = spec_join_text_parts parts := by
  intro parts
  induction parts with
  | nil =>
    intro s h
    simp only [joinTextPartsE, Except.ok.injEq] at h
    subst h; rfl
  | cons p rest ih =>
    intro s h
    cases p with
    | obj kvs =>
      rw [joinTextPartsE] at h
      split at h
      · exact absurd h (by simp)
      · rename_i restS hrest
        split at h
        · rename_i htag
          split at h
          · rename_i s' hs'
            simp only [Except.ok.injEq] at h
            subst h
            have hty := getD_null_eq (beq_str_true htag) (by simp)
            rw [spec_join_text_parts, hty, ← ih hrest]
            cases hlt : Value.lookup (Value.obj kvs) "text" with
            | some y =>
              simp only [Value.getD, hlt] at hs'
              subst hs'
              simp [hlt]
            | none =>
              simp only [Value.getD, hlt, Value.str.injEq] at hs'
              subst hs'
              simp [hlt]
          · exact absurd h (by simp)
        · rename_i htag
          simp only [Except.ok.injEq] at h
          subst h
          rw [spec_join_text_parts, ← ih hrest]
          cases hlt : Value.lookup (Value.obj kvs) "type" with
          | none => simp
          | some y =>
            cases y with
            | str t =>
              have hne : ¬ t = "text" := by
                intro hteq
                subst hteq
                simp only [Value.getD, hlt] at htag
                simp [BEq.beq, Value.beq] at htag
              simp [hne]
            | null => simp
            | bool b => simp
            | num n => simp
            | arr xs => simp
            | obj kvs2 => simp
    | null => exact absurd h (by simp [joinTextPartsE])
    | bool b => exact absurd h (by simp [joinTextPartsE])
    | num n => exact absurd h (by simp [joinTextPartsE])
    | str t => exact absurd h (by simp [joinTextPartsE])
    | arr xs => exact absurd h (by simp [joinTextPartsE])

theorem fmt2_spec {c : Value} {o : Option Value} (h : extract_fmt2 c = .ok o) :
    o = spec_shape_content c := by
  unfold extract_fmt2 at h
  split at h
  · exact absurd h (by simp)
  · rename_i hb
    simp only [Except.ok.injEq] at h; subst h
    simp [spec_shape_content, pyInE_false_lookup hb]
  · cases hg : getItemStrE c "content" with
    | error e => rw [hg] at h; exact absurd h (by simp)
    | ok content =>
      rw [hg] at h
      have hl := getItemStrE_ok hg
      split at h
      · rename_i e heq
        exact absurd heq (by simp)
      · rename_i s heq
        simp only [Except.ok.injEq] at heq h
        subst heq; subst h
        simp [spec_shape_content, hl]
      · rename_i parts heq
        simp only [Except.ok.injEq] at heq
        subst heq
        split at h
        · exact absurd h (by simp)
        · rename_i js hj
          simp only [Except.ok.injEq] at h; subst h
          simp [spec_shape_content, hl, joinTextPartsE_spec hj]
      · rename_i hns hna heq
        simp only [Except.ok.injEq] at heq
        subst heq
        simp only [Except.ok.injEq] at h
        subst h
        cases content with
        | str s => exact (hns s rfl).elim
        | arr parts => exact (hna parts rfl).elim
        | null => simp [spec_shape_content, hl]
        | bool b => simp [spec_shape_content, hl]
        | num n => simp [spec_shape_content, hl]
        | obj kvs => simp [spec_shape_content, hl]

theorem fmt3_spec {c : Value} {o : Option Value} (h : extract_fmt3 c = .ok o) :
    o = spec_shape_text c := by
  unfold extract_fmt3 at h
  split at h
  · exact absurd h (by simp)
  · rename_i hb
    simp only [Except.ok.injEq] at h; subst h
    simp [spec_shape_text, pyInE_false_lookup hb]
  · cases hg : getItemStrE c "text" with
    | error e => rw [hg] at h; exact absurd h (by simp [Except.map])
    | ok v =>
      rw [hg] at h
      simp only [Except.map, Except.ok.injEq] at h; subst h
      simp [spec_shape_text, getItemStrE_ok hg]

theorem fmt4_spec {c : Value} {o : Option Value} (h : extract_fmt4 c = .ok o) :
    o = spec_shape_output c := by
  unfold extract_fmt4 at h
  split at h
  · exact absurd h (by simp)
  · rename_i hb
    simp only [Except.ok.injEq] at h; subst h
    simp [spec_shape_output, pyInE_false_lookup hb]
  · cases hg : getItemStrE c "output" with
    | error e => rw [hg] at h; exact absurd h (by simp)
    | ok output =>
      rw [hg] at h
      have hl := getItemStrE_ok hg
      split at h
      · rename_i e heq
        exact absurd heq (by simp)
      · rename_i s heq
        simp only [Except.ok.injEq] at heq h
        subst heq; subst h
        simp [spec_shape_output, hl]
      · rename_i kvs heq
        simp only [Except.ok.injEq] at heq
        subst heq
        split at h
        · rename_i v hv
          simp only [Except.ok.injEq] at h; subst h
          simp [spec_shape_output, hl, hv]
        · rename_i hnone
          split at h
          · rename_i v hv
            simp only [Except.ok.injEq] at h; subst h
            simp [spec_shape_output, hl, hnone, hv]
          · rename_i hnone2
            simp only [Except.ok.injEq] at h; subst h
            simp [spec_shape_output, hl, hnone, hnone2]
      · rename_i hns hno heq
        simp only [Except.ok.injEq] at heq
        subst heq
        simp only [Except.ok.injEq] at h
        subst h
        cases output with
        | str s => exact (hns s rfl).elim
        | obj kvs => exact (hno kvs rfl).elim
        | null => simp [spec_shape_output, hl]
        | bool b => simp [spec_shape_output, hl]
        | num n => simp [spec_shape_output, hl]
        | arr xs => simp [spec_shape_output, hl]

theorem fmt5_spec {c : Value} {o : Option Value} (h : extract_fmt5 c = .ok o) :
    o = spec_shape_delta c := by
  unfold extract_fmt5 at h
  split at h
  · exact absurd h (by simp)
  · rename_i hb
    simp only [Except.ok.injEq] at h; subst h
    simp [spec_shape_delta, pyInE_false_lookup hb]
  · cases hg : getItemStrE c "delta" with
    | error e => rw [hg] at h; exact absurd h (by simp)
    | ok delta =>
      rw [hg] at h
      have hl := getItemStrE_ok hg
      split at h
      · rename_i e heq
        exact absurd heq (by simp)
      · rename_i s heq
        simp only [Except.ok.injEq] at heq h
        subst heq; subst h
        simp [spec_shape_delta, hl]
      · rename_i kvs heq
        simp only [Except.ok.injEq] at heq
        subst heq
        split at h
        · rename_i v hv
          simp only [Except.ok.injEq] at h; subst h
          simp [spec_shape_delta, hl, hv]
        · rename_i hnone
          simp only [Except.ok.injEq] at h; subst h
          simp [spec_shape_delta, hl, hnone]
      · rename_i hns hno heq
        simp only [Except.ok.injEq] at heq
        subst heq
        simp only [Except.ok.injEq] at h
        subst h
        cases delta with
        | str s => exact (hns s rfl).elim
        | obj kvs => exact (hno kvs rfl).elim
        | null => simp [spec_shape_delta, hl]
        | bool b => simp [spec_shape_delta, hl]
        | num n => simp [spec_shape_delta, hl]
        | arr xs => simp [spec_shape_delta, hl]

/-- C8 amended: on every fragment whose probing raises no exception, the
extractor agrees exactly with the specification's five-shape priority
chain (first matching shape wins, `none` when no shape matches); when a
probe raises — as an empty or malformed `choices` list does — the
handler returns `none` without trying the remaining shapes. -/
theorem extract_matches_spec_when_exception_free :
    ∀ (c : Value) (r : Option Value), extract_content_E c = .ok r →
      extract_content_from_stream c = extract_spec c := by
  intro c r h
  have hw : extract_content_from_stream c = r := by
    simp [extract_content_from_stream, h]
  rw [hw]
  unfold extract_content_E at h
  split at h
  · exact absurd h (by simp)
  · rename_i v h1
    simp only [Except.ok.injEq] at h; subst h
    simp [extract_spec, Option.orElse, ← fmt1_spec h1]
  · rename_i h1
    split at h
    · exact absurd h (by simp)
    · rename_i v h2
      simp only [Except.ok.injEq] at h; subst h
      simp [extract_spec, Option.orElse, ← fmt1_spec h1, ← fmt2_spec h2]
    · rename_i h2
      split at h
      · exact absurd h (by simp)
      · rename_i v h3
        simp only [Except.ok.injEq] at h; subst h
        simp [extract_spec, Option.orElse, ← fmt1_spec h1, ← fmt2_spec h2,
          ← fmt3_spec h3]
      · rename_i h3
        split at h
        · exact absurd h (by simp)
        · rename_i v h4
          simp only [Except.ok.injEq] at h; subst h
          simp [extract_spec, Option.orElse, ← fmt1_spec h1, ← fmt2_spec h2,
            ← fmt3_spec h3, ← fmt4_spec h4]
        · rename_i h4
          split at h
          · exact absurd h (by simp)
          · rename_i v h5
            simp only [Except.ok.injEq] at h; subst h
            simp [extract_spec, Option.orElse, ← fmt1_spec h1, ← fmt2_spec h2,
              ← fmt3_spec h3, ← fmt4_spec h4, ← fmt5_spec h5]
          · rename_i h5
            simp only [Except.ok.injEq] at h; subst h
            simp [extract_spec, Option.orElse, ← fmt1_spec h1, ← fmt2_spec h2,
              ← fmt3_spec h3, ← fmt4_spec h4, ← fmt5_spec h5]

/-- C8 amended witness: an exception-free fragment handled by the `text`
shape. -/
theorem extract_matches_spec_when_exception_free_witness :
    extract_content_E (.obj [("text", .str "hi")]) = .ok (some (.str "hi"))
    ∧ extract_content_from_stream (.obj [("text", .str "hi")])
      = extract_spec (.obj [("text", .str "hi")]) :=
  ⟨rfl, extract_matches_spec_when_exception_free _ (some (.str "hi")) rfl⟩

/-- C8 counterexample: on the fragment
`{"choices": [], "content": "hello"}` the probe of the `choices` shape
raises (`choices[0]` on an empty list), the handler returns `None`, and
the top-level `content` shape is never tried — although the
specification's shape chain yields `"hello"`. -/
theorem extract_exception_masks_later_shapes :
    extract_content_from_stream (.obj [("choices", .arr []), ("content", .str "hello")])
      = none
    ∧ extract_spec (.obj [("choices", .arr []), ("content", .str "hello")])
      = some (.str "hello") :=
  ⟨rfl, rfl⟩

end DataDiscovery
